import Mathlib

/-
Verification of the rcflow diagram-editor editing core: a shallow embedding
of the zustand application store (saveToHistory, undo, redo, deleteNode),
the per-node edit handlers (handleDelete, updateNodeData, resize moves),
the context-menu delete, and the canvas pane-click handler, with theorems
about the history-log invariants, undo/redo behaviour, delete semantics,
the circle aspect lock and node creation.
-/

namespace RcFlow

/-- Position of a node on the canvas. Coordinates are modelled as integers. -/
structure Position where
  x : Int
  y : Int
deriving DecidableEq, Repr

/-- The data payload of a node, from the CustomNodeData interface: label,
nodeType (a string such as rectangle, circle or label), optional width,
height, backgroundColor, textColor and borderStyle. -/
structure NodeData where
  label : String
  nodeType : String
  width : Option Int := none
  height : Option Int := none
  backgroundColor : Option String := none
  textColor : Option String := none
  borderStyle : Option String := none
deriving DecidableEq, Repr

/-- A node of the diagram: id, type tag (the app always uses the custom
type), position and data. -/
structure Node where
  id : String
  type : String
  position : Position
  data : NodeData
deriving DecidableEq, Repr

/-- An edge of the diagram: id, source node id, target node id, type tag. -/
structure Edge where
  id : String
  source : String
  target : String
  type : String
deriving DecidableEq, Repr

/-- One history entry: the nodes and edges captured by saveToHistory. -/
structure Snapshot where
  nodes : List Node
  edges : List Edge
deriving DecidableEq, Repr

/-- The application store state: current tool, canvas contents, the history
log with its index, the editing target and the selection set. -/
structure AppState where
  currentTool : String
  nodes : List Node
  edges : List Edge
  history : List Snapshot
  historyIndex : Int
  editingNodeId : Option String
  selectedNodes : List Node
deriving DecidableEq, Repr

/-- The initial store state: select tool, empty canvas, empty history with
index -1, nothing being edited, empty selection. -/
def initialState : AppState :=
  { currentTool := "select", nodes := [], edges := [], history := [],
    historyIndex := -1, editingNodeId := none, selectedNodes := [] }

/-- setNodes: unconditional full replacement of the nodes list. -/
def setNodes (ns : List Node) (s : AppState) : AppState :=
  { s with nodes := ns }

/-- setEdges: unconditional full replacement of the edges list. -/
def setEdges (es : List Edge) (s : AppState) : AppState :=
  { s with edges := es }

/-- setCurrentTool: sets the active tool. -/
def setCurrentTool (t : String) (s : AppState) : AppState :=
  { s with currentTool := t }

/-- saveToHistory: slices the history up to and including the current index
(discarding any redo branch), appends a snapshot of the current nodes and
edges, and sets the index to the new last position. -/
def saveToHistory (s : AppState) : AppState :=
  let newHistory :=
    s.history.take (s.historyIndex + 1).toNat ++ [{ nodes := s.nodes, edges := s.edges }]
  { s with history := newHistory, historyIndex := (newHistory.length : Int) - 1 }

/-- undo: when the index is positive, restores nodes and edges from the
entry before the index and decrements the index; otherwise does nothing.
The none branch of the lookup is unreachable whenever the index is within
the history, which the invariant theorems establish. -/
def undo (s : AppState) : AppState :=
  if 0 < s.historyIndex then
    match s.history[(s.historyIndex - 1).toNat]? with
    | some prevState =>
        { s with nodes := prevState.nodes, edges := prevState.edges,
                 historyIndex := s.historyIndex - 1 }
    | none => s
  else s

/-- redo: when the index is below the last entry, restores nodes and edges
from the entry after the index and increments the index; otherwise does
nothing. -/
def redo (s : AppState) : AppState :=
  if s.historyIndex < (s.history.length : Int) - 1 then
    match s.history[(s.historyIndex + 1).toNat]? with
    | some nextState =>
        { s with nodes := nextState.nodes, edges := nextState.edges,
                 historyIndex := s.historyIndex + 1 }
    | none => s
  else s

/-- deleteNode of the store: filters out the node with the given id, filters
out every edge whose source or target is that id, then commits a history
snapshot. -/
def deleteNode (nodeId : String) (s : AppState) : AppState :=
  let updatedNodes := s.nodes.filter (fun node => node.id != nodeId)
  let updatedEdges :=
    s.edges.filter (fun edge => edge.source != nodeId && edge.target != nodeId)
  saveToHistory { s with nodes := updatedNodes, edges := updatedEdges }

/-- handleDelete of the node popover: filters the node out of the nodes
list, writes the filtered list back with setNodes and commits a history
snapshot. The edges list is not touched. -/
def handleDelete (id : String) (s : AppState) : AppState :=
  let updatedNodes := s.nodes.filter (fun node => node.id != id)
  saveToHistory (setNodes updatedNodes s)

/-- deleteNode of the NodeContextMenu component: filters the node out of the
nodes list, writes it back with setNodes and commits a history snapshot.
The edges list is not touched. -/
def contextMenuDeleteNode (nodeId : String) (s : AppState) : AppState :=
  let updatedNodes := s.nodes.filter (fun node => node.id != nodeId)
  saveToHistory (setNodes updatedNodes s)

/-- A selective update of NodeData: a present field overrides the node field,
an absent field leaves it, matching object spread of the updates over the
existing data. -/
structure NodeDataUpdates where
  label : Option String := none
  nodeType : Option String := none
  width : Option Int := none
  height : Option Int := none
  backgroundColor : Option String := none
  textColor : Option String := none
  borderStyle : Option String := none
deriving DecidableEq, Repr

/-- Spread of a NodeDataUpdates over a NodeData. -/
def mergeData (d : NodeData) (u : NodeDataUpdates) : NodeData :=
  { label := u.label.getD d.label
    nodeType := u.nodeType.getD d.nodeType
    width := match u.width with | some w => some w | none => d.width
    height := match u.height with | some h => some h | none => d.height
    backgroundColor :=
      match u.backgroundColor with | some c => some c | none => d.backgroundColor
    textColor := match u.textColor with | some c => some c | none => d.textColor
    borderStyle := match u.borderStyle with | some b => some b | none => d.borderStyle }

/-- updateNodeData of the node component: maps over the nodes, spreading the
updates into the data of the node with the matching id, writes the list back
and commits a history snapshot. -/
def updateNodeData (id : String) (updates : NodeDataUpdates) (s : AppState) : AppState :=
  let updatedNodes := s.nodes.map (fun node =>
    if node.id == id then { node with data := mergeData node.data updates } else node)
  saveToHistory (setNodes updatedNodes s)

/-- Substring containment as the includes method of a string computes it. -/
def jsIncludes (s pat : String) : Bool :=
  1 < (s.splitOn pat).length

/-- The resize state captured by handleResizeStart: the corner handle name,
the starting pointer position and the starting size. -/
structure ResizeStart where
  handle : String
  startX : Int
  startY : Int
  startWidth : Int
  startHeight : Int
deriving DecidableEq, Repr

/-- The new width and height computed by handleResizeMove from the pointer
delta: per-axis clamped update keyed by the handle name, then, for a circle
node, both axes unified to the minimum of the two. -/
def resizeDims (handle : String) (startWidth startHeight deltaX deltaY : Int)
    (nodeType : String) : Int × Int :=
  let newWidth := startWidth
  let newHeight := startHeight
  let newWidth := if jsIncludes handle "right" then max 50 (startWidth + deltaX) else newWidth
  let newWidth := if jsIncludes handle "left" then max 50 (startWidth - deltaX) else newWidth
  let newHeight := if jsIncludes handle "bottom" then max 30 (startHeight + deltaY) else newHeight
  let newHeight := if jsIncludes handle "top" then max 30 (startHeight - deltaY) else newHeight
  if nodeType == "circle" then
    let size := min newWidth newHeight
    (size, size)
  else (newWidth, newHeight)

/-- handleResizeMove: computes the new dimensions from the captured resize
state and the current pointer position and writes them into the node data
through updateNodeData. -/
def handleResizeMove (id nodeType : String) (rs : ResizeStart)
    (clientX clientY : Int) (s : AppState) : AppState :=
  let dims := resizeDims rs.handle rs.startWidth rs.startHeight
    (clientX - rs.startX) (clientY - rs.startY) nodeType
  updateNodeData id { width := some dims.1, height := some dims.2 } s

/-- A whole drag: handleResizeMove applied for each pointer-move event of
the sequence, in order. -/
def applyResizeMoves (id nodeType : String) (rs : ResizeStart)
    (events : List (Int × Int)) (s : AppState) : AppState :=
  events.foldl (fun st ev => handleResizeMove id nodeType rs ev.1 ev.2 st) s

/-- onPaneClick of the canvas: with the select tool nothing happens;
otherwise a new node is appended at the projected click position, with
nodeType taken from the tool, size 100 by 40 for a label and 120 by 80
otherwise, a history snapshot is committed, and the tool resets to select.
The id suffix is the current timestamp, passed in as a parameter. -/
def onPaneClick (now : Nat) (posX posY : Int) (s : AppState) : AppState :=
  if s.currentTool == "select" then s
  else
    let newNode : Node :=
      { id := "node-" ++ toString now
        type := "custom"
        position := { x := posX, y := posY }
        data :=
          { label := ""
            nodeType := if s.currentTool == "label" then "label" else s.currentTool
            width := some (if s.currentTool == "label" then 100 else 120)
            height := some (if s.currentTool == "label" then 40 else 80) } }
    setCurrentTool "select" (saveToHistory (setNodes (s.nodes ++ [newNode]) s))

/-- The history-log operations, for quantifying over call sequences. -/
inductive HistOp where
  | save : HistOp
  | undoCall : HistOp
  | redoCall : HistOp
deriving DecidableEq, Repr

/-- Dispatch of one history-log call on the store. -/
def applyHistOp (s : AppState) (op : HistOp) : AppState :=
  match op with
  | .save => saveToHistory s
  | .undoCall => undo s
  | .redoCall => redo s

/-- The store after a sequence of history-log calls from the initial state. -/
def runHistOps (ops : List HistOp) : AppState :=
  ops.foldl applyHistOp initialState

/-- The history cursor invariant: either the empty history state with index
-1, or the index lies within the entries. -/
def historyInvariant (s : AppState) : Prop :=
  (s.history = [] ∧ s.historyIndex = -1) ∨
  (0 ≤ s.historyIndex ∧ s.historyIndex < (s.history.length : Int))

/-- An address of a node object on the object heap. The reference model
makes explicit that an array of objects holds references. -/
abbrev Ref := Nat

/-- The object heap: node objects and edge objects, addressed by index. -/
structure RefHeap where
  nodeObjs : List NodeData
  edgeObjs : List Edge
deriving DecidableEq, Repr

/-- One history entry in the reference model: the reference lists stored by
the snapshot, as array spread copies them (the same element references). -/
structure RefSnapshot where
  nodes : List Ref
  edges : List Ref
deriving DecidableEq, Repr

/-- The store in the reference model: live reference arrays over a heap of
shared objects, plus the history log. -/
structure RefStore where
  heap : RefHeap
  nodes : List Ref
  edges : List Ref
  history : List RefSnapshot
  historyIndex : Int
deriving DecidableEq, Repr

/-- saveToHistory in the reference model: array spread builds a fresh array
holding the same element references, which the pushed snapshot stores. -/
def saveToHistoryRef (s : RefStore) : RefStore :=
  let snapshot : RefSnapshot := { nodes := s.nodes, edges := s.edges }
  let newHistory := s.history.take (s.historyIndex + 1).toNat ++ [snapshot]
  { s with history := newHistory, historyIndex := (newHistory.length : Int) - 1 }

/-- setNodes in the reference model: the live nodes array is replaced by a
different array of references; the heap and the history are untouched. -/
def setNodesRef (ns : List Ref) (s : RefStore) : RefStore :=
  { s with nodes := ns }

/-- An in-place mutation of the node object at a given address: the heap
cell is overwritten and every array holding that reference observes it. -/
def mutateNodeObj (r : Ref) (v : NodeData) (s : RefStore) : RefStore :=
  { s with heap := { s.heap with nodeObjs := s.heap.nodeObjs.set r v } }

/-- The node objects a stored snapshot dereferences to on a given heap. -/
def derefSnapshotNodes (h : RefHeap) (snap : RefSnapshot) : List (Option NodeData) :=
  snap.nodes.map (fun r => h.nodeObjs[r]?)

end RcFlow

namespace RcFlow

/-- saveToHistory preserves the cursor invariant from any state: the new
index is the last position of a non-empty list. -/
theorem saveToHistory_invariant (s : AppState) : historyInvariant (saveToHistory s) := by
  right
  simp only [saveToHistory, List.length_append, List.length_take, List.length_cons,
    List.length_nil]
  omega

/-- undo preserves the cursor invariant. -/
theorem undo_invariant (s : AppState) (h : historyInvariant s) :
    historyInvariant (undo s) := by
  by_cases hpos : 0 < s.historyIndex
  · rw [undo, if_pos hpos]
    rcases hg : s.history[(s.historyIndex - 1).toNat]? with _ | prev
    · simpa [hg] using h
    · simp only [hg]
      right
      have hlen : s.historyIndex < (s.history.length : Int) := by
        rcases h with ⟨-, hidx⟩ | ⟨-, hlt⟩
        · omega
        · exact hlt
      exact ⟨by show 0 ≤ s.historyIndex - 1; omega,
             by show s.historyIndex - 1 < (s.history.length : Int); omega⟩
  · rw [undo, if_neg hpos]
    exact h

/-- redo preserves the cursor invariant. -/
theorem redo_invariant (s : AppState) (h : historyInvariant s) :
    historyInvariant (redo s) := by
  by_cases hlt : s.historyIndex < (s.history.length : Int) - 1
  · rw [redo, if_pos hlt]
    rcases hg : s.history[(s.historyIndex + 1).toNat]? with _ | next
    · simpa [hg] using h
    · simp only [hg]
      right
      have hge : 0 ≤ s.historyIndex := by
        rcases h with ⟨hnil, hidx⟩ | ⟨hge, -⟩
        · rw [hnil] at hlt
          simp at hlt
          omega
        · exact hge
      exact ⟨by show 0 ≤ s.historyIndex + 1; omega,
             by show s.historyIndex + 1 < (s.history.length : Int); omega⟩
  · rw [redo, if_neg hlt]
    exact h

/-- Any sequence of history-log calls preserves the cursor invariant. -/
theorem foldl_applyHistOp_invariant (ops : List HistOp) (s : AppState)
    (h : historyInvariant s) : historyInvariant (ops.foldl applyHistOp s) := by
  induction ops generalizing s with
  | nil => exact h
  | cons op rest ih =>
    refine ih (applyHistOp s op) ?_
    cases op
    · exact saveToHistory_invariant s
    · exact undo_invariant s h
    · exact redo_invariant s h

/-- C2: for every sequence of saveToHistory, undo and redo calls starting
from the empty history state, after each call either the history is empty
with index -1 or the index lies within the entries. -/
theorem c2_cursor_invariant : ∀ ops : List HistOp, historyInvariant (runHistOps ops) :=
  fun ops => foldl_applyHistOp_invariant ops initialState (Or.inl ⟨rfl, rfl⟩)

/-- C10: immediately after any saveToHistory call the index equals the last
position of the history, and a redo issued directly after saveToHistory is
a no-op that leaves the whole store unchanged. -/
theorem c10_redo_after_save : ∀ s : AppState,
    (saveToHistory s).historyIndex = ((saveToHistory s).history.length : Int) - 1 ∧
    redo (saveToHistory s) = saveToHistory s := by
  intro s
  refine ⟨rfl, ?_⟩
  have hidx : (saveToHistory s).historyIndex =
      ((saveToHistory s).history.length : Int) - 1 := rfl
  have hneg : ¬ ((saveToHistory s).historyIndex <
      ((saveToHistory s).history.length : Int) - 1) := by
    rw [hidx]
    omega
  rw [redo, if_neg hneg]

/-- The store the C9 scenario starts from: empty canvas, empty history,
rectangle tool. -/
def c9start : AppState := setCurrentTool "rectangle" initialState

/-- The node the C9 scenario expects: at the click position, rectangle type,
size 120 by 80, id formed from the timestamp. -/
def c9node (now : Nat) : Node :=
  { id := "node-" ++ toString now
    type := "custom"
    position := { x := 50, y := 60 }
    data := { label := "", nodeType := "rectangle", width := some 120, height := some 80 } }

/-- C9: from the empty store with the rectangle tool, a pane click projected
to position 50, 60 creates exactly one node there with nodeType rectangle,
width 120 and height 80, leaves exactly one history entry, and resets the
tool to select. -/
theorem c9_rectangle_click : ∀ now : Nat,
    (onPaneClick now 50 60 c9start).nodes = [c9node now] ∧
    (onPaneClick now 50 60 c9start).history = [{ nodes := [c9node now], edges := [] }] ∧
    (onPaneClick now 50 60 c9start).edges = [] ∧
    (onPaneClick now 50 60 c9start).currentTool = "select" := by
  intro now
  exact ⟨rfl, rfl, rfl, rfl⟩

/-- First node of the C1 failing input. -/
def c1n1 : Node :=
  { id := "n1", type := "custom", position := { x := 0, y := 0 },
    data := { label := "a", nodeType := "rectangle" } }

/-- Second node of the C1 failing input. -/
def c1n2 : Node :=
  { id := "n2", type := "custom", position := { x := 10, y := 10 },
    data := { label := "b", nodeType := "rectangle" } }

/-- The edge of the C1 failing input, from n1 to n2. -/
def c1e1 : Edge := { id := "e1", source := "n1", target := "n2", type := "straight" }

/-- The C1 failing input: two nodes and one edge between them. -/
def c1state : AppState :=
  { currentTool := "select", nodes := [c1n1, c1n2], edges := [c1e1], history := [],
    historyIndex := -1, editingNodeId := none, selectedNodes := [] }

/-- C1: evaluating the code at the failing input. Deleting node n1 through
the popover handleDelete or the context-menu delete removes the node but
leaves the edge e1, whose source is n1, in the edges list, while the store
deleteNode that the spec references removes it: the handlers never touch
the edges. -/
theorem c1_delete_handlers_keep_edges :
    (handleDelete "n1" c1state).edges = [c1e1] ∧
    (contextMenuDeleteNode "n1" c1state).edges = [c1e1] ∧
    c1e1.source = "n1" ∧
    (handleDelete "n1" c1state).nodes = [c1n2] ∧
    (contextMenuDeleteNode "n1" c1state).nodes = [c1n2] ∧
    (deleteNode "n1" c1state).edges = [] := by
  decide

/-- The C3 counterexample state: two history entries, index at the first,
live nodes and edges matching the first entry. -/
def c3state : AppState :=
  { currentTool := "select", nodes := [], edges := [],
    history := [{ nodes := [], edges := [] }, { nodes := [c1n1], edges := [] }],
    historyIndex := 0, editingNodeId := none, selectedNodes := [] }

/-- C3 counterexample: at index 0 the undo is a no-op but the following redo
advances to the second entry, so undo then redo does not restore the nodes
and edges that existed before the undo. -/
theorem c3_counterexample :
    ((redo (undo c3state)).nodes, (redo (undo c3state)).edges) ≠
      (c3state.nodes, c3state.edges) := by
  decide

/-- The C7 counterexample state: one node, no edges, empty history. -/
def c7state : AppState :=
  { currentTool := "select", nodes := [c1n1], edges := [], history := [],
    historyIndex := -1, editingNodeId := none, selectedNodes := [] }

/-- C7 counterexample: calling deleteNode twice does not leave the store in
the state one call leaves it in, because every call commits a history
snapshot: the second call appends a duplicate entry and advances the index. -/
theorem c7_counterexample :
    deleteNode "n1" (deleteNode "n1" c7state) ≠ deleteNode "n1" c7state := by
  decide

/-- The node object of the C5 counterexample before the mutation. -/
def c5d0 : NodeData := { label := "a", nodeType := "rectangle" }

/-- The value written over the node object by the in-place mutation. -/
def c5d1 : NodeData := { label := "mutated", nodeType := "rectangle" }

/-- The C5 counterexample store: one live node object at address 0. -/
def c5store : RefStore :=
  { heap := { nodeObjs := [c5d0], edgeObjs := [] }, nodes := [0], edges := [],
    history := [], historyIndex := -1 }

/-- C5 counterexample: the snapshot stored by saveToHistory holds the very
reference 0 that the live nodes array holds, and an in-place mutation of
that shared node object changes what the stored snapshot dereferences to,
so the snapshot is not a deep value copy free of shared references. -/
theorem c5_counterexample :
    (saveToHistoryRef c5store).history = [{ nodes := [0], edges := [] }] ∧
    (saveToHistoryRef c5store).nodes = [0] ∧
    derefSnapshotNodes (mutateNodeObj 0 c5d1 (saveToHistoryRef c5store)).heap
        { nodes := [0], edges := [] } ≠
      derefSnapshotNodes (saveToHistoryRef c5store).heap { nodes := [0], edges := [] } := by
  decide

/-- C5 amended: saveToHistory stores a shallow copy. The snapshot pushed by
saveToHistory is exactly the live reference lists at save time, so the node
and edge objects are shared; yet replacing the live arrays afterwards, or
mutating a node object on the heap, never alters the stored reference
lists themselves. -/
theorem c5_shallow_snapshot : ∀ (s : RefStore) (ns : List Ref) (r : Ref) (v : NodeData),
    (saveToHistoryRef s).history.getLast? = some { nodes := s.nodes, edges := s.edges } ∧
    (setNodesRef ns (saveToHistoryRef s)).history = (saveToHistoryRef s).history ∧
    (mutateNodeObj r v (saveToHistoryRef s)).history = (saveToHistoryRef s).history := by
  intro s ns r v
  refine ⟨?_, rfl, rfl⟩
  show (List.take _ _ ++ [_]).getLast? = _
  rw [List.getLast?_concat]

/-- First history entry of the C4 scenario. -/
def c4S0 : Snapshot := { nodes := [], edges := [] }

/-- Second history entry of the C4 scenario. -/
def c4S1 : Snapshot := { nodes := [c1n1], edges := [] }

/-- Third history entry of the C4 scenario. -/
def c4S2 : Snapshot := { nodes := [c1n1, c1n2], edges := [] }

/-- The nodes of the new state S3 committed after the two undo calls. -/
def c4nodes3 : List Node := [c1n2]

/-- The C4 scenario start: history S0, S1, S2 with the cursor at 2 and the
live state matching S2. -/
def c4start : AppState :=
  { currentTool := "select", nodes := [c1n1, c1n2], edges := [],
    history := [c4S0, c4S1, c4S2], historyIndex := 2,
    editingNodeId := none, selectedNodes := [] }

/-- C4: saveToHistory truncates the entries after the cursor, appends a
snapshot of the current nodes and edges and moves the cursor to the new
last index; in the scenario, two undo calls from history S0, S1, S2 at
cursor 2 give cursor 0 and state S0, and committing a new state S3 then
yields entries S0, S3 with cursor 1. -/
theorem c4_save_truncates_after_cursor :
    (∀ s : AppState,
      (saveToHistory s).history =
        s.history.take (s.historyIndex + 1).toNat ++
          [{ nodes := s.nodes, edges := s.edges }] ∧
      (saveToHistory s).historyIndex = ((saveToHistory s).history.length : Int) - 1) ∧
    (undo (undo c4start)).historyIndex = 0 ∧
    (undo (undo c4start)).nodes = c4S0.nodes ∧
    (undo (undo c4start)).edges = c4S0.edges ∧
    (saveToHistory (setNodes c4nodes3 (undo (undo c4start)))).history =
      [c4S0, { nodes := c4nodes3, edges := [] }] ∧
    (saveToHistory (setNodes c4nodes3 (undo (undo c4start)))).historyIndex = 1 :=
  ⟨fun _ => ⟨rfl, rfl⟩, by decide, by decide, by decide, by decide, by decide⟩

/-- C6: deleteNode keeps exactly the nodes whose id differs from the deleted
id and exactly the edges referencing it neither as source nor as target;
what it keeps is a sublist of the original lists, so order and contents of
every survivor are untouched. -/
theorem c6_deleteNode_frame :
    ∀ (s : AppState) (nodeId : String),
      (deleteNode nodeId s).nodes = s.nodes.filter (fun node => node.id != nodeId) ∧
      (deleteNode nodeId s).nodes.Sublist s.nodes ∧
      (∀ n : Node, n ∈ (deleteNode nodeId s).nodes ↔ n ∈ s.nodes ∧ n.id ≠ nodeId) ∧
      (deleteNode nodeId s).edges =
        s.edges.filter (fun edge => edge.source != nodeId && edge.target != nodeId) ∧
      (deleteNode nodeId s).edges.Sublist s.edges ∧
      (∀ e : Edge, e ∈ (deleteNode nodeId s).edges ↔
        e ∈ s.edges ∧ e.source ≠ nodeId ∧ e.target ≠ nodeId) := by
  intro s nodeId
  refine ⟨rfl, ?_, ?_, rfl, ?_, ?_⟩
  · show (s.nodes.filter (fun node => node.id != nodeId)).Sublist s.nodes
    exact List.filter_sublist s.nodes
  · intro n
    show n ∈ s.nodes.filter (fun node => node.id != nodeId) ↔ _
    simp [List.mem_filter, bne_iff_ne]
  · show (s.edges.filter (fun edge => edge.source != nodeId && edge.target != nodeId)).Sublist s.edges
    exact List.filter_sublist s.edges
  · intro e
    show e ∈ s.edges.filter (fun edge => edge.source != nodeId && edge.target != nodeId) ↔ _
    simp [List.mem_filter, Bool.and_eq_true, bne_iff_ne, and_assoc]

/-- C3 amended: when the undo actually fires (positive cursor) and the live
nodes and edges match the snapshot at the cursor, as they do after every
committed edit, undo immediately followed by redo restores the exact nodes
and edges that existed before the undo. -/
theorem c3_undo_redo_roundtrip (s : AppState)
    (hpos : 0 < s.historyIndex)
    (hcur : s.history[s.historyIndex.toNat]? = some { nodes := s.nodes, edges := s.edges }) :
    (redo (undo s)).nodes = s.nodes ∧ (redo (undo s)).edges = s.edges := by
  have hlen : s.historyIndex.toNat < s.history.length := by
    by_contra hge
    rw [List.getElem?_eq_none (Nat.le_of_not_lt hge)] at hcur
    exact Option.noConfusion hcur
  have hm1 : (s.historyIndex - 1).toNat < s.history.length := by omega
  obtain ⟨prev, hprev⟩ : ∃ prev, s.history[(s.historyIndex - 1).toNat]? = some prev :=
    ⟨s.history.get ⟨(s.historyIndex - 1).toNat, hm1⟩, List.getElem?_eq_getElem hm1⟩
  rw [undo, if_pos hpos, hprev]
  rw [redo]
  have hcond : s.historyIndex - 1 < (s.history.length : Int) - 1 := by omega
  rw [if_pos hcond]
  have ht : (s.historyIndex - 1 + 1).toNat = s.historyIndex.toNat := by omega
  rw [ht, hcur]
  exact ⟨rfl, rfl⟩

/-- The C3 witness state: two history entries with the cursor on the second
and the live state matching it. -/
def c3wstate : AppState :=
  { currentTool := "select", nodes := [c1n1], edges := [],
    history := [{ nodes := [], edges := [] }, { nodes := [c1n1], edges := [] }],
    historyIndex := 1, editingNodeId := none, selectedNodes := [] }

/-- C3 witness: the amended round trip at a concrete store. -/
theorem c3_roundtrip_witness :
    (redo (undo c3wstate)).nodes = c3wstate.nodes ∧
    (redo (undo c3wstate)).edges = c3wstate.edges :=
  c3_undo_redo_roundtrip c3wstate (by decide) (by decide)

/-- saveToHistory appends exactly one entry whenever the cursor already sits
on the last entry, which is the case directly after any saveToHistory. -/
theorem saveToHistory_length_of_top (s : AppState)
    (h : s.historyIndex = (s.history.length : Int) - 1) :
    (saveToHistory s).history.length = s.history.length + 1 := by
  simp only [saveToHistory, List.length_append, List.length_take, List.length_cons,
    List.length_nil]
  omega

/-- C7 amended: when the id matches no live node and no edge references it,
deleteNode leaves the nodes and edges unchanged without error; deleteNode
is idempotent on the nodes and edges, two calls leaving them as one call
does; but each call always commits a history snapshot, so the second call
grows the history log by exactly one entry. -/
theorem c7_deleteNode_idempotent_on_content (s : AppState) (nodeId : String)
    (hn : ∀ n ∈ s.nodes, n.id ≠ nodeId)
    (he : ∀ e ∈ s.edges, e.source ≠ nodeId ∧ e.target ≠ nodeId) :
    (deleteNode nodeId s).nodes = s.nodes ∧
    (deleteNode nodeId s).edges = s.edges ∧
    (deleteNode nodeId (deleteNode nodeId s)).nodes = (deleteNode nodeId s).nodes ∧
    (deleteNode nodeId (deleteNode nodeId s)).edges = (deleteNode nodeId s).edges ∧
    (deleteNode nodeId (deleteNode nodeId s)).history.length =
      (deleteNode nodeId s).history.length + 1 := by
  refine ⟨?_, ?_, ?_, ?_, ?_⟩
  · show s.nodes.filter (fun node => node.id != nodeId) = s.nodes
    exact List.filter_eq_self.mpr (fun n hmem => bne_iff_ne.mpr (hn n hmem))
  · show s.edges.filter (fun edge => edge.source != nodeId && edge.target != nodeId) = s.edges
    refine List.filter_eq_self.mpr (fun e hmem => ?_)
    rw [Bool.and_eq_true, bne_iff_ne, bne_iff_ne]
    exact he e hmem
  · show ((deleteNode nodeId s).nodes.filter (fun node => node.id != nodeId)) = _
    exact List.filter_eq_self.mpr (fun n hmem => (List.mem_filter.mp hmem).2)
  · show ((deleteNode nodeId s).edges.filter
      (fun edge => edge.source != nodeId && edge.target != nodeId)) = _
    exact List.filter_eq_self.mpr (fun e hmem => (List.mem_filter.mp hmem).2)
  · show (saveToHistory _).history.length = _
    exact saveToHistory_length_of_top _ rfl

/-- C7 witness: the amended statement at a concrete store whose nodes and
edges never mention the deleted id. -/
theorem c7_idempotent_witness :
    (deleteNode "zz" c1state).nodes = c1state.nodes ∧
    (deleteNode "zz" c1state).edges = c1state.edges ∧
    (deleteNode "zz" (deleteNode "zz" c1state)).nodes = (deleteNode "zz" c1state).nodes ∧
    (deleteNode "zz" (deleteNode "zz" c1state)).edges = (deleteNode "zz" c1state).edges ∧
    (deleteNode "zz" (deleteNode "zz" c1state)).history.length =
      (deleteNode "zz" c1state).history.length + 1 :=
  c7_deleteNode_idempotent_on_content c1state "zz" (by decide) (by decide)

/-- For a circle node the two dimensions computed by a resize move are
unified, so they are equal. -/
theorem resizeDims_circle (handle : String) (sw sh dx dy : Int) :
    (resizeDims handle sw sh dx dy "circle").1 = (resizeDims handle sw sh dx dy "circle").2 := by
  simp [resizeDims]

/-- After a single resize move on a circle node, every node carrying the
resized id has equal persisted width and height. -/
theorem handleResizeMove_circle_lock (id : String) (rs : ResizeStart) (x y : Int)
    (s : AppState) :
    ((handleResizeMove id "circle" rs x y s).nodes.all
      (fun n => n.id != id || n.data.width == n.data.height)) = true := by
  have hdims := resizeDims_circle rs.handle rs.startWidth rs.startHeight
    (x - rs.startX) (y - rs.startY)
  show ((s.nodes.map _).all _) = true
  rw [List.all_map, List.all_eq_true]
  intro n _
  simp only [Function.comp_apply]
  by_cases hid : n.id == id
  · rw [if_pos hid]
    simp [mergeData, hdims]
  · rw [if_neg hid]
    have hfalse : (n.id == id) = false := by
      rwa [Bool.not_eq_true] at hid
    simp [bne, hfalse]

/-- C8: for a circle node, every resize write unifies the two axes, so
after any nonempty sequence of resize pointer moves the persisted width of
the resized node equals its persisted height. -/
theorem c8_circle_resize_lock (id nodeType : String) (rs : ResizeStart)
    (events : List (Int × Int)) (s : AppState)
    (hc : nodeType = "circle") (hne : events ≠ []) :
    ((applyResizeMoves id nodeType rs events s).nodes.all
      (fun n => n.id != id || n.data.width == n.data.height)) = true := by
  subst hc
  revert hne
  induction events generalizing s with
  | nil => intro hne; exact absurd rfl hne
  | cons e rest ih =>
    intro _
    cases rest with
    | nil => exact handleResizeMove_circle_lock id rs e.1 e.2 s
    | cons e2 rest2 =>
      exact ih (handleResizeMove id "circle" rs e.1 e.2 s) (List.cons_ne_nil e2 rest2)

/-- The circle node of the C8 witness, starting with unequal dimensions. -/
def c8circle : Node :=
  { id := "c1", type := "custom", position := { x := 0, y := 0 },
    data := { label := "", nodeType := "circle", width := some 120, height := some 80 } }

/-- The captured resize start of the C8 witness. -/
def c8rs : ResizeStart :=
  { handle := "bottom-right", startX := 0, startY := 0, startWidth := 120, startHeight := 80 }

/-- The store of the C8 witness. -/
def c8state : AppState :=
  { currentTool := "select", nodes := [c8circle], edges := [], history := [],
    historyIndex := -1, editingNodeId := none, selectedNodes := [] }

/-- C8 witness: the aspect lock at a concrete drag of one pointer move. -/
theorem c8_lock_witness :
    ((applyResizeMoves "c1" "circle" c8rs [(10, 5)] c8state).nodes.all
      (fun n => n.id != "c1" || n.data.width == n.data.height)) = true :=
  c8_circle_resize_lock "c1" "circle" c8rs [(10, 5)] c8state rfl (by decide)

end RcFlow

